import Mathlib

/-!
Verification of the sqlx low-level Postgres connection core
(src/src/postgres/connection/mod.rs) against its natural-language
specification.

Bytes are modelled as natural numbers (values < 256 where produced by an
encoder).  The wire codec (the protocol module of this repository) is not part
of the provided source slice, so it is modelled from the spec: one message is
a 1-byte tag, a 4-byte big-endian length that includes itself and excludes the
tag, and a payload.  The transport (receive / flush / write), the query
preamble (finish) and the three query drivers are translated directly from
src/src/postgres/connection/mod.rs.
-/

namespace Sqlx

/-- Big-endian 4-byte encoding of a natural number (low 32 bits). -/
def be32 (n : Nat) : List Nat :=
  [n / 16777216 % 256, n / 65536 % 256, n / 256 % 256, n % 256]

/-- Big-endian 2-byte encoding of a natural number (low 16 bits). -/
def be16 (n : Nat) : List Nat :=
  [n / 256 % 256, n % 256]

/-- Read a big-endian 32-bit value from four bytes. -/
def readBE32 (b0 b1 b2 b3 : Nat) : Nat :=
  b0 * 16777216 + b1 * 65536 + b2 * 256 + b3

/-- Null-terminated (C-style) string encoding of a byte sequence. -/
def cstr (s : List Nat) : List Nat := s ++ [0]

/-- Split a buffer at the first NUL byte: the bytes before it and the rest
after it.  Fails when no NUL is present. -/
def takeCStr : List Nat → Option (List Nat × List Nat)
  | [] => none
  | b :: rest =>
    if b = 0 then some ([], rest)
    else
      match takeCStr rest with
      | some (s, r) => some (b :: s, r)
      | none => none

/-- Modelled from the spec: the backend messages the decode path produces.
`ParameterStatus` (two C strings: name and value), `Response` (diagnostic
with a severity and a message text extracted from its sub-fields), and a
generic catch-all for every other backend message (row data,
command-complete, ready-for-query, ...), kept as its tag and raw payload. -/
inductive Message where
  | parameterStatus (name value : List Nat)
  | response (severity text : List Nat)
  | other (tag : Nat) (payload : List Nat)
deriving DecidableEq, Repr

/-- Modelled from the spec: parse one message body given its tag.
Tag 83 is ParameterStatus (two C strings, consumed exactly);
tag 69 is Response (field byte 83 with the severity C string, field byte 77
with the message C string, then the field-list terminator 0);
every other tag is kept as a generic message. -/
def decodeBody (tag : Nat) (payload : List Nat) : Option Message :=
  if tag = 83 then
    match takeCStr payload with
    | some (name, rest1) =>
      (match takeCStr rest1 with
       | some (value, rest2) =>
         if rest2 = [] then some (.parameterStatus name value) else none
       | none => none)
    | none => none
  else if tag = 69 then
    match payload with
    | 83 :: rest =>
      (match takeCStr rest with
       | some (sev, rest1) =>
         (match rest1 with
          | 77 :: rest2 =>
            (match takeCStr rest2 with
             | some (txt, rest3) =>
               if rest3 = [0] then some (.response sev txt) else none
             | none => none)
          | _ => none)
       | none => none)
    | _ => none
  else
    some (.other tag payload)

/-- Modelled from the spec: attempt to consume exactly one complete message
from the front of the buffer.  On success return the message and the buffer
with the consumed region removed; whenever fewer bytes are present than the
tag-plus-length header or the declared length, or the body is malformed,
return none together with the untouched buffer. -/
def decode (buf : List Nat) : Option Message × List Nat :=
  match buf with
  | tag :: b0 :: b1 :: b2 :: b3 :: rest =>
    let len := readBE32 b0 b1 b2 b3
    if 4 ≤ len ∧ len - 4 ≤ rest.length then
      match decodeBody tag (rest.take (len - 4)) with
      | some m => (some m, rest.drop (len - 4))
      | none => (none, buf)
    else (none, buf)
  | _ => (none, buf)

/-- Modelled from the spec: the wire bytes of one decodable backend message
(tag, 4-byte big-endian length that includes itself and excludes the tag,
payload). -/
def encodeMsg : Message → List Nat
  | .parameterStatus name value =>
    let payload := cstr name ++ cstr value
    83 :: be32 (4 + payload.length) ++ payload
  | .response severity text =>
    let payload := 83 :: (cstr severity ++ 77 :: (cstr text ++ [0]))
    69 :: be32 (4 + payload.length) ++ payload
  | .other tag payload =>
    tag :: be32 (4 + payload.length) ++ payload

/-- Representable message variants: C-string fields carry no NUL byte, the
whole frame's declared length fits in 32 bits, and a generic message does not
use a tag claimed by a structured variant. -/
def wfMsg : Message → Prop
  | .parameterStatus name value =>
    0 ∉ name ∧ 0 ∉ value ∧ 4 + (cstr name ++ cstr value).length < 4294967296
  | .response severity text =>
    0 ∉ severity ∧ 0 ∉ text ∧
      4 + (83 :: (cstr severity ++ 77 :: (cstr text ++ [0]))).length < 4294967296
  | .other tag payload =>
    tag ≠ 83 ∧ tag ≠ 69 ∧ 4 + payload.length < 4294967296

/-- The total byte count one complete message starting at the front of the
buffer needs: 5 when even the tag-plus-length header is incomplete, otherwise
one tag byte plus the declared length. -/
def neededLen : List Nat → Nat
  | _ :: b0 :: b1 :: b2 :: b3 :: _ => 1 + readBE32 b0 b1 b2 b3
  | _ => 5

/-- State of PostgresRawConnection (mod.rs lines 23-44): the read buffer
rbuf, the stream_readable and stream_eof flags, the write buffer wbuf, the
backend process id and secret key.  The extra field written records the bytes
successfully written to the socket, standing in for the TcpStream's outgoing
side. -/
structure Conn where
  rbuf : List Nat
  stream_readable : Bool
  stream_eof : Bool
  wbuf : List Nat
  written : List Nat
  process_id : Nat
  secret_key : Nat
deriving DecidableEq, Repr

/-- Rust i16 cast of a usize value: the low 16 bits, interpreted as a signed
16-bit integer (mod.rs line 210: params.types.len() as i16). -/
def castI16 (n : Nat) : Int :=
  if n % 65536 < 32768 then (n % 65536 : Int) else (n % 65536 : Int) - 65536

/-- Two's-complement 2-byte big-endian encoding of an i16 value. -/
def i16Bytes (i : Int) : List Nat :=
  be16 (i % 65536).toNat

/-- Frontend messages as written by the connection (mod.rs finish and
finalize): Parse, Bind, Execute, Sync, Terminate, with exactly the fields the
source passes. -/
inductive Frontend where
  | parse (portal query : List Nat) (param_types : List Nat)
  | bind (portal statement : List Nat) (formats : List Nat) (values_len : Int)
      (values : List Nat) (result_formats : List Nat)
  | execute (portal : List Nat) (limit : Nat)
  | sync
  | terminate
deriving DecidableEq, Repr

/-- Modelled from the spec: wire encoding of the frontend messages (the
protocol module is not in the provided slice).  Null-terminated strings for
names and query text, 2-byte counts, 4-byte OIDs, 2-byte format codes, and a
tag plus 4-byte big-endian length that includes itself and excludes the tag.
Parse is tag 80, Bind tag 66, Execute tag 69, Sync tag 83, Terminate tag 88. -/
def encodeFront : Frontend → List Nat
  | .parse portal query param_types =>
    let payload := cstr portal ++ cstr query ++ be16 (param_types.length % 65536)
      ++ param_types.flatMap (fun t => be32 (t % 4294967296))
    80 :: be32 (4 + payload.length) ++ payload
  | .bind portal statement formats values_len values result_formats =>
    let payload := cstr portal ++ cstr statement
      ++ be16 (formats.length % 65536) ++ formats.flatMap (fun f => be16 (f % 65536))
      ++ i16Bytes values_len ++ values
      ++ be16 (result_formats.length % 65536)
      ++ result_formats.flatMap (fun f => be16 (f % 65536))
    66 :: be32 (4 + payload.length) ++ payload
  | .execute portal limit =>
    let payload := cstr portal ++ be32 (limit % 4294967296)
    69 :: be32 (4 + payload.length) ++ payload
  | .sync => 83 :: be32 4
  | .terminate => 88 :: be32 4

/-- Query parameters (PostgresQueryParameters): the ordered parameter type
OIDs and the contiguous pre-encoded binary values buffer. -/
structure PostgresQueryParameters where
  types : List Nat
  buf : List Nat
deriving DecidableEq, Repr

/-- write (mod.rs lines 142-144): encode the message into the write buffer;
no I/O is performed. -/
def write (c : Conn) (message : Frontend) : Conn :=
  { c with wbuf := c.wbuf ++ encodeFront message }

/-- flush (mod.rs lines 146-151): write_all of wbuf to the socket, then clear
wbuf.  The socket write outcome is supplied as an oracle; on failure the ?
operator returns early, before the clear, leaving the connection state
untouched. -/
def flush (c : Conn) (sock : Except Nat Unit) : Except Nat Unit × Conn :=
  match sock with
  | .error e => (.error e, c)
  | .ok _ => (.ok (), { c with written := c.written ++ c.wbuf, wbuf := [] })

/-- finish (mod.rs lines 198-222): write Parse (unnamed statement, the query,
the parameter type OIDs), Bind (unnamed portal and statement, binary format
code 1 for parameters and results, values_len = types.len() as i16, the raw
values buffer), Execute (unnamed portal, the given row limit), Sync. -/
def finish (c : Conn) (query : List Nat) (params : PostgresQueryParameters)
    (limit : Nat) : Conn :=
  let c := write c (.parse [] query params.types)
  let c := write c (.bind [] [] [1] (castI16 params.types.length) params.buf [1])
  let c := write c (.execute [] limit)
  write c .sync

/-- RawConnection::execute (mod.rs lines 167-175): buffered part before the
driver future runs — finish with limit 0. -/
def rcExecute (c : Conn) (query : List Nat) (params : PostgresQueryParameters) : Conn :=
  finish c query params 0

/-- RawConnection::fetch (mod.rs lines 177-185): buffered part before the
driver future runs — finish with limit 0. -/
def rcFetch (c : Conn) (query : List Nat) (params : PostgresQueryParameters) : Conn :=
  finish c query params 0

/-- RawConnection::fetch_optional (mod.rs lines 187-195): buffered part
before the driver future runs — finish with limit 1. -/
def rcFetchOptional (c : Conn) (query : List Nat) (params : PostgresQueryParameters) : Conn :=
  finish c query params 1

/-- Inner decode loop of receive (mod.rs lines 91-114), fuel-indexed to make
it structurally recursive and executable.  Each decoded message removes at
least 5 bytes from rbuf, so with fuel rbuf.length + 1 the fuel can never run
out before the loop ends on its own.  ParameterStatus and Response messages
are consumed silently and the loop continues (lines 94-101); any other
message is returned with rbuf already advanced past it (lines 103-105); when
no complete message can be decoded the source sets stream_readable to true
(line 109, despite the flag meaning "data worth decoding is present") and
breaks out to refill. -/
def drainLoopF : Nat → Conn → Conn × Option Message
  | 0, c => (c, none)
  | fuel + 1, c =>
    match decode c.rbuf with
    | (some (.parameterStatus _ _), rest) => drainLoopF fuel { c with rbuf := rest }
    | (some (.response _ _), rest) => drainLoopF fuel { c with rbuf := rest }
    | (some m, rest) => ({ c with rbuf := rest }, some m)
    | (none, _) => ({ c with stream_readable := true }, none)

/-- The stream_readable-guarded decode phase of one receive iteration
(mod.rs line 91): when the flag is clear the decode loop is skipped
entirely. -/
def drain (c : Conn) : Conn × Option Message :=
  if c.stream_readable then drainLoopF (c.rbuf.length + 1) c else (c, none)

/-- Outcome of receive: Ok(Some msg) / Ok(None), an I/O error from the socket
read, or blocked forever awaiting a read for which the modelled socket has no
more events. -/
inductive RecvResult where
  | ok (m : Option Message)
  | ioError (e : Nat)
  | blocked
deriving DecidableEq, Repr

/-- One socket read event: some bytes arriving (an empty chunk is a
zero-length read, i.e. the peer closed), or an I/O error. -/
abbrev ReadEvent := Except Nat (List Nat)

/-- receive (mod.rs lines 84-140).  The socket is modelled as the list of
read events it will deliver.  Each outer loop iteration: if stream_eof is set
return Ok(None) (lines 86-89); if stream_readable run the decode loop and
return any non-absorbed message (lines 91-114); otherwise read from the
socket (lines 124-128), append the bytes to rbuf (line 132), set stream_eof
on a zero-length read (lines 134-136), set stream_readable (line 138) and
loop.  Returns the result, the final state, and the unconsumed events.  The
outer loop is fuel-indexed to keep it structurally recursive and executable;
receive below supplies fuel that can never run out. -/
def receiveF : Nat → Conn → List ReadEvent → RecvResult × Conn × List ReadEvent
  | 0, c, events => (.blocked, c, events)
  | fuel + 1, c, events =>
    if c.stream_eof then (.ok none, c, events)
    else
      match drain c with
      | (c1, some m) => (.ok (some m), c1, events)
      | (c1, none) =>
        match events with
        | [] => (.blocked, c1, [])
        | .error e :: evs => (.ioError e, c1, evs)
        | .ok chunk :: evs =>
          receiveF fuel { c1 with rbuf := c1.rbuf ++ chunk,
                                  stream_eof := c1.stream_eof || chunk.isEmpty,
                                  stream_readable := true } evs

/-- receive proper: each outer loop iteration either returns or consumes one
socket read event, so events.length + 1 iterations always suffice and the
fuel never runs out before the loop ends on its own. -/
def receive (c : Conn) (events : List ReadEvent) : RecvResult × Conn × List ReadEvent :=
  receiveF (events.length + 1) c events

/-- k successive calls of receive on the same connection, threading the state
and the remaining socket events; collects the k results. -/
def receiveIter : Nat → Conn → List ReadEvent → List RecvResult × Conn × List ReadEvent
  | 0, c, evs => ([], c, evs)
  | k + 1, c, evs =>
    match receive c evs with
    | (r, c1, evs1) =>
      match receiveIter k c1 evs1 with
      | (rs, c2, evs2) => (r :: rs, c2, evs2)

/-- Host and port as extracted from a successfully parsed connection URL
(Url::parse): host_str may be absent, port may be absent. -/
structure UrlParts where
  host : Option (List Nat)
  port : Option Nat
deriving DecidableEq, Repr

/-- Where the pre-socket phase of establish ends up: an abort via a panicking
unwrap, or proceeding to TcpStream::connect with a resolved address.  Note
there is no error-value outcome on this phase: the only Error the source can
return from establish arises later, from socket I/O. -/
inductive EstablishPre where
  | panicked
  | connectTo (ip : Nat) (port : Nat)
deriving DecidableEq, Repr

/-- The bytes of the string localhost. -/
def localhostBytes : List Nat := [108, 111, 99, 97, 108, 104, 111, 115, 116]

/-- establish, pre-socket phase (mod.rs lines 47-58).  Modelled from the
spec: URL parsing and IP-address parsing are external collaborators, so their
results enter as an Option and a lookup function.  The source calls .unwrap()
on Url::parse (line 49) and on host.parse::<IpAddr>() (line 55), so a failed
parse panics instead of producing an error value; a parsed URL falls back to
host localhost and port 5432 when absent (lines 51-52). -/
def establishPre (urlParsed : Option UrlParts) (ipParse : List Nat → Option Nat) :
    EstablishPre :=
  match urlParsed with
  | none => .panicked
  | some u =>
    let host := u.host.getD localhostBytes
    let port := u.port.getD 5432
    match ipParse host with
    | none => .panicked
    | some ip => .connectTo ip port

instance : ∀ m, Decidable (wfMsg m)
  | .parameterStatus _ _ => by unfold wfMsg; infer_instance
  | .response _ _ => by unfold wfMsg; infer_instance
  | .other _ _ => by unfold wfMsg; infer_instance

/-- Reading back the four big-endian bytes of a value below 2^32 recovers
the value. -/
theorem readBE32_be32 (n : Nat) (h : n < 4294967296) :
    readBE32 (n / 16777216 % 256) (n / 65536 % 256) (n / 256 % 256) (n % 256) = n := by
  unfold readBE32
  omega

/-- Splitting at the first NUL of a NUL-free sequence followed by a NUL
recovers the sequence and the remainder. -/
theorem takeCStr_append (s r : List Nat) (hs : 0 ∉ s) :
    takeCStr (s ++ 0 :: r) = some (s, r) := by
  induction s with
  | nil => simp [takeCStr]
  | cons b s ih =>
    have hb : b ≠ 0 := fun hb0 => hs (hb0 ▸ List.mem_cons_self b s)
    have hs' : 0 ∉ s := fun h0 => hs (List.mem_cons_of_mem b h0)
    simp [takeCStr, hb, ih hs']

/-- With stream_eof set, one receive call returns Ok(None) at the top of the
loop, touching neither the connection state nor the socket. -/
theorem receive_eof_step (c : Conn) (evs : List ReadEvent) (h : c.stream_eof = true) :
    receive c evs = (.ok none, c, evs) := by
  simp [receive, receiveF, h]

/-- C1: for every query issued through execute, fetch, or fetch_optional,
the bytes appended to the write buffer before flushing are exactly, in
order: one Parse frame, one Bind frame, one Execute frame carrying the row
limit, and one Sync frame, where the limit is 1 for fetch_optional and 0 for
execute and fetch, for every query text and parameter list. -/
theorem finish_writes_exact_frames (c : Conn) (q : List Nat)
    (p : PostgresQueryParameters) :
    (rcExecute c q p).wbuf = c.wbuf
        ++ encodeFront (.parse [] q p.types)
        ++ encodeFront (.bind [] [] [1] (castI16 p.types.length) p.buf [1])
        ++ encodeFront (.execute [] 0)
        ++ encodeFront .sync
    ∧ (rcFetch c q p).wbuf = c.wbuf
        ++ encodeFront (.parse [] q p.types)
        ++ encodeFront (.bind [] [] [1] (castI16 p.types.length) p.buf [1])
        ++ encodeFront (.execute [] 0)
        ++ encodeFront .sync
    ∧ (rcFetchOptional c q p).wbuf = c.wbuf
        ++ encodeFront (.parse [] q p.types)
        ++ encodeFront (.bind [] [] [1] (castI16 p.types.length) p.buf [1])
        ++ encodeFront (.execute [] 1)
        ++ encodeFront .sync := by
  refine ⟨?_, ?_, ?_⟩ <;>
    simp [rcExecute, rcFetch, rcFetchOptional, finish, write, List.append_assoc]

/-- C3: once a zero-length socket read has set stream_eof, every later
receive call returns Ok(None), leaves the connection unchanged, and consumes
no socket read event, however many calls are made. -/
theorem receive_after_eof_forever (k : Nat) (c : Conn) (evs : List ReadEvent)
    (h : c.stream_eof = true) :
    receiveIter k c evs = (List.replicate k (.ok none), c, evs) := by
  induction k with
  | zero => simp [receiveIter]
  | succ k ih => simp [receiveIter, receive_eof_step c evs h, ih, List.replicate_succ]

/-- Witness for C3 at a concrete closed connection and a pending event list:
two calls both return Ok(None) and leave the one queued read event
unconsumed. -/
theorem receive_after_eof_forever_witness :
    receiveIter 2 ⟨[7], false, true, [], [], 0, 0⟩ [Except.ok [1, 2]]
      = (List.replicate 2 (.ok none), ⟨[7], false, true, [], [], 0, 0⟩,
         [Except.ok [1, 2]]) :=
  receive_after_eof_forever 2 ⟨[7], false, true, [], [], 0, 0⟩ [Except.ok [1, 2]] rfl

/-- C7: whenever flush returns successfully, the whole write buffer content
has been written to the socket and the write buffer is empty afterwards. -/
theorem flush_success_empties_wbuf (c c1 : Conn) (sock : Except Nat Unit)
    (h : flush c sock = (.ok (), c1)) :
    c1.written = c.written ++ c.wbuf ∧ c1.wbuf = [] := by
  cases sock with
  | error e => simp [flush] at h
  | ok u =>
    simp [flush] at h
    subst h
    exact ⟨rfl, rfl⟩

/-- Witness for C7 at a concrete connection holding two buffered bytes. -/
theorem flush_success_empties_wbuf_witness :
    (⟨[], false, false, [], [9, 1, 2], 0, 0⟩ : Conn).written
        = (⟨[], false, false, [1, 2], [9], 0, 0⟩ : Conn).written
          ++ (⟨[], false, false, [1, 2], [9], 0, 0⟩ : Conn).wbuf
    ∧ (⟨[], false, false, [], [9, 1, 2], 0, 0⟩ : Conn).wbuf = [] :=
  flush_success_empties_wbuf ⟨[], false, false, [1, 2], [9], 0, 0⟩
    ⟨[], false, false, [], [9, 1, 2], 0, 0⟩ (.ok ()) rfl

/-- C9: if flush returns an I/O error, the write buffer content is left
unchanged — the buffer is only cleared on the success path. -/
theorem flush_error_preserves_wbuf (c c1 : Conn) (e : Nat) (sock : Except Nat Unit)
    (h : flush c sock = (.error e, c1)) :
    c1.wbuf = c.wbuf := by
  cases sock with
  | error e0 =>
    simp [flush] at h
    rw [← h.2]
  | ok u => simp [flush] at h

/-- Witness for C9 at a concrete connection and a failing socket write. -/
theorem flush_error_preserves_wbuf_witness :
    (⟨[], false, false, [1, 2], [9], 0, 0⟩ : Conn).wbuf
      = (⟨[], false, false, [1, 2], [9], 0, 0⟩ : Conn).wbuf :=
  flush_error_preserves_wbuf ⟨[], false, false, [1, 2], [9], 0, 0⟩
    ⟨[], false, false, [1, 2], [9], 0, 0⟩ 3 (.error 3) rfl

/-- C8 (code evaluated at the failing input): establish on an address string
that fails to parse panics through .unwrap() — the pre-socket phase ends in
the panicked outcome, not in an error value handed to the caller. -/
theorem establish_parse_failure_panics :
    establishPre none (fun _ => none) = .panicked := rfl

/-- The two count bytes produced for the i16 cast of a length are the length
modulo 2^16 in big-endian, for every length. -/
theorem i16Bytes_castI16 (n : Nat) : i16Bytes (castI16 n) = be16 (n % 65536) := by
  have h : ((castI16 n) % 65536).toNat = n % 65536 := by
    unfold castI16
    split <;> omega
  unfold i16Bytes
  rw [h]

/-- C10: the parameter count written in the Bind frame is the number of
parameter types cast to i16, so for every parameter list with more than
32767 entries the encoded count bytes are the length modulo 2^16, and finish
still buffers the four frames normally instead of failing. -/
theorem bind_values_len_wraps (c : Conn) (q : List Nat)
    (p : PostgresQueryParameters) (limit : Nat) (h : 32767 < p.types.length) :
    i16Bytes (castI16 p.types.length) = be16 (p.types.length % 65536)
    ∧ (finish c q p limit).wbuf = c.wbuf
        ++ encodeFront (.parse [] q p.types)
        ++ encodeFront (.bind [] [] [1] (castI16 p.types.length) p.buf [1])
        ++ encodeFront (.execute [] limit)
        ++ encodeFront .sync := by
  refine ⟨i16Bytes_castI16 p.types.length, ?_⟩
  simp [finish, write, List.append_assoc]

/-- Witness for C10 with 32768 parameter types: the encoded count is
32768 % 65536 (whose i16 reading is negative), and the frames are still
written. -/
theorem bind_values_len_wraps_witness :
    i16Bytes (castI16 (⟨List.replicate 32768 0, []⟩ :
          PostgresQueryParameters).types.length)
      = be16 ((⟨List.replicate 32768 0, []⟩ :
          PostgresQueryParameters).types.length % 65536)
    ∧ (finish ⟨[], false, false, [], [], 0, 0⟩ [] ⟨List.replicate 32768 0, []⟩ 0).wbuf
      = (⟨[], false, false, [], [], 0, 0⟩ : Conn).wbuf
        ++ encodeFront (.parse [] []
            (⟨List.replicate 32768 0, []⟩ : PostgresQueryParameters).types)
        ++ encodeFront (.bind [] [] [1]
            (castI16 (⟨List.replicate 32768 0, []⟩ :
              PostgresQueryParameters).types.length)
            (⟨List.replicate 32768 0, []⟩ : PostgresQueryParameters).buf [1])
        ++ encodeFront (.execute [] 0)
        ++ encodeFront .sync :=
  bind_values_len_wraps ⟨[], false, false, [], [], 0, 0⟩ [] ⟨List.replicate 32768 0, []⟩ 0
    (by rw [List.length_replicate]; omega)

/-- C2 (code evaluated at the failing input): with an error-severity
Response (severity ERROR, message text bad) followed by a ReadyForQuery
message in the read buffer, receive silently consumes the Response and
returns the ReadyForQuery message as an Ok value — no caller-visible error
is produced for the in-flight operation. -/
theorem receive_swallows_error_response :
    receive
      ⟨encodeMsg (.response [69, 82, 82, 79, 82] [98, 97, 100])
         ++ encodeMsg (.other 90 [73]), true, false, [], [], 0, 0⟩ []
      = (.ok (some (.other 90 [73])), ⟨[], true, false, [], [], 0, 0⟩, []) := by
  rfl

/-- C4 (code evaluated at the failing input): when the decode attempt finds
no complete message (a single buffered byte, less than the tag-plus-length
header), the source sets stream_readable to true — not false — before
breaking out to refill from the socket. -/
theorem drain_insufficient_sets_readable :
    drain ⟨[90], true, false, [], [], 0, 0⟩
        = (⟨[90], true, false, [], [], 0, 0⟩, none)
    ∧ (drain ⟨[90], true, false, [], [], 0, 0⟩).1.stream_readable = true := by
  decide

/-- Decoding a buffer that is one whole frame (tag, big-endian length
4 + payload.length, payload) parses the body on the full payload and
consumes the buffer exactly. -/
theorem decode_frame (tag : Nat) (payload : List Nat) (m : Message)
    (hlen : 4 + payload.length < 4294967296)
    (hbody : decodeBody tag payload = some m) :
    decode (tag :: be32 (4 + payload.length) ++ payload) = (some m, []) := by
  have hr := readBE32_be32 (4 + payload.length) hlen
  simp only [be32, List.cons_append, List.nil_append]
  simp only [decode, hr]
  rw [if_pos (by omega)]
  have hsub : 4 + payload.length - 4 = payload.length := by omega
  rw [hsub, List.take_length, List.drop_length, hbody]

/-- C6: for every input buffer holding fewer bytes than one complete message
(including fewer than the tag-plus-length header itself), decode returns
none and hands the buffer back completely unchanged, so repeated calls with
no new data return the same result. -/
theorem decode_insufficient (buf : List Nat) (h : buf.length < neededLen buf) :
    decode buf = (none, buf) := by
  rcases buf with _ | ⟨t, _ | ⟨b0, _ | ⟨b1, _ | ⟨b2, _ | ⟨b3, rest⟩⟩⟩⟩⟩
  · rfl
  · rfl
  · rfl
  · rfl
  · rfl
  · simp only [neededLen, List.length_cons] at h
    have hcond : ¬(4 ≤ readBE32 b0 b1 b2 b3
        ∧ readBE32 b0 b1 b2 b3 - 4 ≤ rest.length) := by omega
    simp only [decode]
    rw [if_neg hcond]

/-- Witness for C6: a buffer whose header declares a 9-byte message but which
holds only the 5 header bytes is returned unchanged with none. -/
theorem decode_insufficient_witness :
    (List.length [90, 0, 0, 0, 8] < neededLen [90, 0, 0, 0, 8])
    ∧ decode [90, 0, 0, 0, 8] = (none, [90, 0, 0, 0, 8]) :=
  ⟨by decide, decode_insufficient [90, 0, 0, 0, 8] (by decide)⟩

/-- C5: for every representable protocol message variant, decoding a buffer
that contains exactly the bytes produced by encoding it yields the message
back, with the whole buffer consumed. -/
theorem decode_encodeMsg (m : Message) (h : wfMsg m) :
    decode (encodeMsg m) = (some m, []) := by
  cases m with
  | parameterStatus name value =>
    simp only [wfMsg] at h
    obtain ⟨hn, hv, hlen⟩ := h
    have h1 : takeCStr (cstr name ++ cstr value) = some (name, cstr value) := by
      have e : cstr name ++ cstr value = name ++ 0 :: cstr value := by simp [cstr]
      rw [e, takeCStr_append name (cstr value) hn]
    have h2 : takeCStr (cstr value) = some (value, []) := by
      have e : cstr value = value ++ 0 :: ([] : List Nat) := by simp [cstr]
      rw [e, takeCStr_append value [] hv]
    have hbody : decodeBody 83 (cstr name ++ cstr value)
        = some (.parameterStatus name value) := by
      simp [decodeBody, h1, h2]
    simpa only [encodeMsg] using decode_frame 83 (cstr name ++ cstr value) _ hlen hbody
  | response sev txt =>
    simp only [wfMsg] at h
    obtain ⟨hs, ht, hlen⟩ := h
    have h1 : takeCStr (cstr sev ++ 77 :: (cstr txt ++ [0]))
        = some (sev, 77 :: (cstr txt ++ [0])) := by
      have e : cstr sev ++ 77 :: (cstr txt ++ [0])
          = sev ++ 0 :: (77 :: (cstr txt ++ [0])) := by simp [cstr]
      rw [e, takeCStr_append sev (77 :: (cstr txt ++ [0])) hs]
    have h2 : takeCStr (cstr txt ++ [0]) = some (txt, [0]) := by
      have e : cstr txt ++ [0] = txt ++ 0 :: [0] := by simp [cstr]
      rw [e, takeCStr_append txt [0] ht]
    have hbody : decodeBody 69 (83 :: (cstr sev ++ 77 :: (cstr txt ++ [0])))
        = some (.response sev txt) := by
      simp [decodeBody, h1, h2]
    simpa only [encodeMsg]
      using decode_frame 69 (83 :: (cstr sev ++ 77 :: (cstr txt ++ [0]))) _ hlen hbody
  | other tag payload =>
    simp only [wfMsg] at h
    obtain ⟨h83, h69, hlen⟩ := h
    have hbody : decodeBody tag payload = some (.other tag payload) := by
      simp [decodeBody, h83, h69]
    simpa only [encodeMsg] using decode_frame tag payload _ hlen hbody

/-- Witness for C5 at a concrete ParameterStatus message with one-byte name
and value. -/
theorem decode_encodeMsg_witness :
    wfMsg (.parameterStatus [97] [98])
    ∧ decode (encodeMsg (.parameterStatus [97] [98]))
        = (some (.parameterStatus [97] [98]), []) :=
  ⟨by decide, decode_encodeMsg (.parameterStatus [97] [98]) (by decide)⟩

end Sqlx
